import Mathlib

/-
Verification of the financial-math core of `firstrade_vs_sp500_app.py`.

The Python program works on `(datetime, float)` pairs.  The embedding models
dates as integers (day numbers, so that `(d2 - d1).days` becomes `d2 - d1`)
and float arithmetic as exact real arithmetic.  Python's runtime failures are
made explicit: every function that can raise returns `Except PyErr _`, and a
value that Python would hold as a `complex` (a negative float base raised to a
non-integer float power) is tracked by the symbolic constructor `PyVal.complex`
(`float()` applied to such a value raises `TypeError`).  `float("nan")` is the
explicit sentinel `PyVal.nan`.
-/

/-- A dated cash flow: one `(date, amount)` tuple of the Python list.
`date` is a day number, `amount` the signed float amount. -/
structure CashFlow where
  date : ℤ
  amount : ℝ

/-- One point of the downloaded price series (`prices.index`, `prices` value). -/
structure PricePoint where
  date : ℤ
  price : ℝ

/-- The Python exception classes the numeric core can raise, plus
`runtimeError` for `scipy`'s non-convergence signal (the only class the
`except` clause in `xirr` catches). -/
inductive PyErr where
  | zeroDivision
  | typeError
  | indexError
  | runtimeError
deriving DecidableEq

/-- A Python numeric value as the core manipulates it: a real float, a
`complex` (value not tracked: the program only ever converts it with
`float(...)`, which raises `TypeError`), or the `float("nan")` sentinel. -/
inductive PyVal where
  | real (x : ℝ)
  | complex
  | nan

open Classical in
/-- Python `b ** e` on floats: a positive base gives the real power; a zero
base gives `0` for positive exponent, `1` for zero exponent and raises
`ZeroDivisionError` for negative exponent; a negative base gives a real for an
integral exponent and a `complex` value otherwise. -/
noncomputable def pypow (b e : ℝ) : Except PyErr PyVal :=
  if 0 < b then .ok (.real (b ^ e))
  else if b = 0 then
    if 0 < e then .ok (.real 0)
    else if e = 0 then .ok (.real 1)
    else .error .zeroDivision
  else if ∃ n : ℤ, (n : ℝ) = e then .ok (.real (b ^ e))
  else .ok .complex

open Classical in
/-- Python `a / v` for a float `a` and a numeric `v`: raises
`ZeroDivisionError` on a zero real divisor, stays `complex` on a complex
divisor (a non-zero power of a non-zero base). -/
noncomputable def pydiv (a : ℝ) (v : PyVal) : Except PyErr PyVal :=
  match v with
  | .real x => if x = 0 then .error .zeroDivision else .ok (.real (a / x))
  | .complex => .ok .complex
  | .nan => .ok .nan

/-- Python `+` on numeric values: real plus real is real, anything involving a
complex is complex (the core never adds `nan`s). -/
noncomputable def pyAdd : PyVal → PyVal → PyVal
  | .real a, .real b => .real (a + b)
  | .nan, _ => .nan
  | _, .nan => .nan
  | _, _ => .complex

/-- The generator sum inside `xnpv`: terms `cf / (1 + rate) ** ((date - t0).days / 365.0)`
evaluated left to right, the first exception aborting the sum. -/
noncomputable def xnpvSum (rate : ℝ) (t0 : ℤ) : List CashFlow → Except PyErr PyVal
  | [] => .ok (.real 0)
  | c :: rest =>
    match pypow (1 + rate) (((c.date - t0 : ℤ) : ℝ) / 365) with
    | .error er => .error er
    | .ok p =>
      match pydiv c.amount p with
      | .error er => .error er
      | .ok t =>
        match xnpvSum rate t0 rest with
        | .error er => .error er
        | .ok s => .ok (pyAdd t s)

/-- `xnpv(rate, cashflows)`: net present value of irregular cash flows.
`t0 = cashflows[0][0]` raises `IndexError` on an empty list; the final
`float(...)` raises `TypeError` when the sum is complex. -/
noncomputable def xnpv (rate : ℝ) (cashflows : List CashFlow) : Except PyErr ℝ :=
  match cashflows with
  | [] => .error .indexError
  | c0 :: _ =>
    match xnpvSum rate c0.date cashflows with
    | .error er => .error er
    | .ok (.real s) => .ok s
    | .ok .complex => .error .typeError
    | .ok .nan => .ok 0

/-- `total_invested(cashflows)`: `-sum(cf for _, cf in cashflows if cf < 0)`. -/
noncomputable def total_invested (cashflows : List CashFlow) : ℝ :=
  -((cashflows.filter (fun c => decide (c.amount < 0))).map CashFlow.amount).sum

open Classical in
/-- `lump_cagr(start_val, end_val, start_date, end_date)`:
`years = (end_date - start_date).days / 365.0`; result is
`(end_val / start_val) ** (1 / years) - 1 if years else float("nan")`.
The division raises `ZeroDivisionError` when `start_val` is zero, and the
power produces a complex value for a negative base and non-integer exponent
(returned as such: the function does not convert it to float). -/
noncomputable def lump_cagr (start_val end_val : ℝ) (start_date end_date : ℤ) :
    Except PyErr PyVal :=
  let years : ℝ := ((end_date - start_date : ℤ) : ℝ) / 365
  if years = 0 then .ok .nan
  else if start_val = 0 then .error .zeroDivision
  else
    match pypow (end_val / start_val) (1 / years) with
    | .error er => .error er
    | .ok (.real x) => .ok (.real (x - 1))
    | .ok .complex => .ok .complex
    | .ok .nan => .ok .nan

/-- The point-in-time lookup `prices[prices.index <= date].iloc[-1]` inside the
synthetic builder: the last price dated at or before `d`; an empty selection
raises `IndexError`. -/
noncomputable def priceAtOrBefore (prices : List PricePoint) (d : ℤ) : Except PyErr ℝ :=
  match (prices.filter (fun p => decide (p.date ≤ d))).getLast? with
  | some p => .ok p.price
  | none => .error .indexError

/-- `prices.iloc[-1]`: the last price of the downloaded series; raises
`IndexError` on an empty series. -/
noncomputable def lastPrice (prices : List PricePoint) : Except PyErr ℝ :=
  match prices.getLast? with
  | some p => .ok p.price
  | none => .error .indexError

open Classical in
/-- The share-accumulation loop of `sp_xirr_equivalent`:
`for date, amt in cashflows[:-1]: if amt < 0: shares += (-amt) / px` with
`px` the latest price at or before `date`; entries with non-negative amount
are skipped.  A zero price would raise `ZeroDivisionError`. -/
noncomputable def spSharesLoop (prices : List PricePoint) :
    List CashFlow → ℝ → Except PyErr ℝ
  | [], shares => .ok shares
  | c :: rest, shares =>
    if c.amount < 0 then
      match priceAtOrBefore prices c.date with
      | .error er => .error er
      | .ok px =>
        if px = 0 then .error .zeroDivision
        else spSharesLoop prices rest (shares + (-c.amount) / px)
    else spSharesLoop prices rest shares

/-- The synthetic benchmark series built inside `sp_xirr_equivalent`:
`cashflows[:-1] + [(end, shares * prices.iloc[-1])]` where `end` is the last
entry's date (`cashflows[-1][0]`, `IndexError` on an empty list) and `shares`
accumulates over the negative-amount non-final entries.  The downloaded price
series is the external collaborator's input, passed in as `prices`. -/
noncomputable def spSynthetic (prices : List PricePoint) (cashflows : List CashFlow) :
    Except PyErr (List CashFlow) :=
  match cashflows.getLast? with
  | none => .error .indexError
  | some clast =>
    match spSharesLoop prices cashflows.dropLast 0 with
    | .error er => .error er
    | .ok shares =>
      match lastPrice prices with
      | .error er => .error er
      | .ok px => .ok (cashflows.dropLast ++ [⟨clast.date, shares * px⟩])

/-- The generator sum of the analytic derivative of `xnpv` with respect to the
rate, used by the Newton solver: term `cf * (-x) / (1 + rate) ** (x + 1)` for
`x = (date - t0).days / 365.0`, with the same Python evaluation semantics as
`xnpvSum`.  Modelled from the spec: the derivative is "estimated numerically
(central difference) or analytically from the same day-count formula"; the
analytic form is used. -/
noncomputable def xnpvDerivSum (rate : ℝ) (t0 : ℤ) : List CashFlow → Except PyErr PyVal
  | [] => .ok (.real 0)
  | c :: rest =>
    match pypow (1 + rate) (((c.date - t0 : ℤ) : ℝ) / 365 + 1) with
    | .error er => .error er
    | .ok p =>
      match pydiv (c.amount * (-(((c.date - t0 : ℤ) : ℝ) / 365))) p with
      | .error er => .error er
      | .ok t =>
        match xnpvDerivSum rate t0 rest with
        | .error er => .error er
        | .ok s => .ok (pyAdd t s)

/-- Modelled from the spec: the derivative evaluation of the root-finder
(`scipy.optimize.newton` is external to this repository), analytic from the
same day-count formula as `xnpv`, with the same failure semantics. -/
noncomputable def xnpvDeriv (rate : ℝ) (cashflows : List CashFlow) : Except PyErr ℝ :=
  match cashflows with
  | [] => .error .indexError
  | c0 :: _ =>
    match xnpvDerivSum rate c0.date cashflows with
    | .error er => .error er
    | .ok (.real s) => .ok s
    | .ok .complex => .error .typeError
    | .ok .nan => .ok 0

open Classical in
/-- Modelled from the spec: the iteration of `scipy.optimize.newton`
(external to this repository).  Newton's method `r - f(r)/f'(r)` with `f` the
present-value evaluator, convergence criterion `|f(r)| < 1e-6`, an iteration
cap after which it raises `RuntimeError`, and `RuntimeError` on a zero
derivative; exceptions raised while evaluating `f` or `f'` propagate. -/
noncomputable def newtonLoop (cashflows : List CashFlow) : ℕ → ℝ → Except PyErr ℝ
  | 0, _ => .error .runtimeError
  | fuel + 1, r =>
    match xnpv r cashflows with
    | .error er => .error er
    | .ok fv =>
      if |fv| < 1 / 1000000 then .ok r
      else
        match xnpvDeriv r cashflows with
        | .error er => .error er
        | .ok dv =>
          if dv = 0 then .error .runtimeError
          else newtonLoop cashflows fuel (r - fv / dv)

/-- `xirr(cashflows)`: `newton(lambda r: xnpv(r, cashflows), 0.1)` wrapped in
`try ... except RuntimeError: return float("nan")`.  Only `RuntimeError` is
caught and converted to the nan sentinel; every other exception raised during
the iteration propagates out of `xirr`.  The iteration cap is 50 (scipy's
default, within the spec's 50-100 range) and the seed `0.1` is the one in the
source. -/
noncomputable def xirr (cashflows : List CashFlow) : Except PyErr PyVal :=
  match newtonLoop cashflows 50 (1 / 10) with
  | .ok r => .ok (.real r)
  | .error .runtimeError => .ok .nan
  | .error er => .error er

/-- `sp_xirr_equivalent(cashflows)` given the externally downloaded `prices`:
build the synthetic benchmark series, then apply `xirr` to it. -/
noncomputable def sp_xirr_equivalent (prices : List PricePoint)
    (cashflows : List CashFlow) : Except PyErr PyVal :=
  match spSynthetic prices cashflows with
  | .error er => .error er
  | .ok synthetic => xirr synthetic

/-
Evaluation lemmas for the Python arithmetic model.
-/

lemma pypow_of_pos {b : ℝ} (e : ℝ) (h : 0 < b) : pypow b e = .ok (.real (b ^ e)) := by
  simp [pypow, h]

lemma pypow_one (e : ℝ) : pypow 1 e = .ok (.real 1) := by
  rw [pypow_of_pos e one_pos, Real.one_rpow]

lemma pypow_zero_of_pos {e : ℝ} (h : 0 < e) : pypow 0 e = .ok (.real 0) := by
  simp [pypow, h, lt_irrefl]

lemma pypow_zero_zero : pypow (0 : ℝ) 0 = .ok (.real 1) := by
  simp [pypow, lt_irrefl]

lemma pypow_zero_of_neg {e : ℝ} (h : e < 0) : pypow 0 e = .error .zeroDivision := by
  simp [pypow, lt_irrefl, not_lt.2 h.le, h.ne]

lemma pypow_neg_int {b : ℝ} (h : b < 0) (n : ℤ) :
    pypow b (n : ℝ) = .ok (.real (b ^ (n : ℝ))) := by
  have hex : ∃ m : ℤ, (m : ℝ) = (n : ℝ) := ⟨n, rfl⟩
  simp [pypow, not_lt.2 h.le, h.ne, hex]

lemma pypow_neg_nonint {b e : ℝ} (h : b < 0) (he : ¬∃ n : ℤ, (n : ℝ) = e) :
    pypow b e = .ok .complex := by
  simp [pypow, not_lt.2 h.le, h.ne, he]

lemma pypow_ne_ok_nan (b e : ℝ) : pypow b e ≠ .ok .nan := by
  rw [pypow]
  split_ifs <;> simp

lemma pydiv_of_ne {a x : ℝ} (h : x ≠ 0) : pydiv a (.real x) = .ok (.real (a / x)) := by
  simp [pydiv, h]

lemma pydiv_of_zero (a : ℝ) : pydiv a (.real 0) = .error .zeroDivision := by
  simp [pydiv]

/-
Claim C5 — `xnpv` at rate zero is the plain sum of the amounts.
-/

lemma xnpvSum_zero_rate (t0 : ℤ) (l : List CashFlow) :
    xnpvSum 0 t0 l = .ok (.real (l.map CashFlow.amount).sum) := by
  induction l with
  | nil => simp [xnpvSum]
  | cons c rest ih =>
    simp only [xnpvSum, add_zero, pypow_one, pydiv_of_ne one_ne_zero, div_one, ih,
      pyAdd, List.map_cons, List.sum_cons]

/-- Claim C5: for every non-empty cash-flow series, evaluating the present
value at rate 0 succeeds and equals the plain sum of all the series'
amounts. -/
theorem xnpv_zero_rate_is_plain_sum (c0 : CashFlow) (cs : List CashFlow) :
    xnpv 0 (c0 :: cs) = .ok (((c0 :: cs).map CashFlow.amount).sum) := by
  rw [xnpv, xnpvSum_zero_rate]

/-
Claim C6 — `lump_cagr` on a zero-length period yields the nan sentinel.
-/

/-- Claim C6: for all values `v1`, `v2` and every date `d`,
`lump_cagr v1 v2 d d` (zero elapsed days) returns the not-a-number sentinel
rather than dividing by zero. -/
theorem lump_cagr_same_day_is_nan (v1 v2 : ℝ) (d : ℤ) :
    lump_cagr v1 v2 d d = .ok .nan := by
  simp [lump_cagr]

/-
Claim C8 — `lump_cagr` with equal start and end values is zero.
-/

lemma years_ne_zero {d1 d2 : ℤ} (hd : d1 ≠ d2) : ((d2 - d1 : ℤ) : ℝ) / 365 ≠ 0 := by
  rw [div_ne_zero_iff]
  refine ⟨?_, by norm_num⟩
  exact_mod_cast sub_ne_zero.2 fun h => hd (by omega)

/-- Claim C8: for every value `v > 0` and distinct dates `d1 ≠ d2`,
`lump_cagr v v d1 d2` equals zero (no growth). -/
theorem lump_cagr_no_growth (v : ℝ) (d1 d2 : ℤ) (hv : 0 < v) (hd : d1 ≠ d2) :
    lump_cagr v v d1 d2 = .ok (.real 0) := by
  simp only [lump_cagr, if_neg (years_ne_zero hd), if_neg hv.ne', div_self hv.ne',
    pypow_one]
  norm_num

/-- Witness for claim C8 at `v = 1000`, dates 0 and 365. -/
theorem lump_cagr_no_growth_witness : lump_cagr 1000 1000 0 365 = .ok (.real 0) :=
  lump_cagr_no_growth 1000 0 365 (by norm_num) (by decide)

/-
Claim C9 — `total_invested` is the sum of the magnitudes of the negative
amounts, hence non-negative.
-/

/-- Claim C9: for every cash-flow list, `total_invested` equals the sum of the
magnitudes of the strictly negative amounts (non-negative amounts contribute
nothing), and is therefore non-negative. -/
theorem total_invested_is_sum_of_magnitudes (cashflows : List CashFlow) :
    total_invested cashflows =
      ((cashflows.filter (fun c => decide (c.amount < 0))).map
        (fun c => |c.amount|)).sum ∧
    0 ≤ total_invested cashflows := by
  have key : ∀ l : List CashFlow,
      -((l.filter (fun c => decide (c.amount < 0))).map CashFlow.amount).sum =
      ((l.filter (fun c => decide (c.amount < 0))).map (fun c => |c.amount|)).sum := by
    intro l
    induction l with
    | nil => simp
    | cons c rest ih =>
      by_cases h : c.amount < 0
      · simp [List.filter_cons, h, abs_of_neg h, ← ih, neg_add]
        ring
      · simp [List.filter_cons, h, ih]
  constructor
  · rw [total_invested]
    exact key cashflows
  · rw [total_invested, key cashflows]
    refine List.sum_nonneg fun x hx => ?_
    obtain ⟨c, _, rfl⟩ := List.mem_map.1 hx
    exact abs_nonneg _

/-
Claim C4 — behaviour of `lump_cagr` on a non-positive start value.
-/

/-- Counterexample to claim C4 as stated: at `startValue = 0` with distinct
dates, `lump_cagr` raises `ZeroDivisionError` (from `end_val / start_val`)
instead of returning the not-a-number sentinel. -/
theorem lump_cagr_zero_start_raises :
    lump_cagr 0 1000 0 365 = .error .zeroDivision ∧
    lump_cagr 0 1000 0 365 ≠ .ok .nan := by
  have h : lump_cagr 0 1000 0 365 = .error .zeroDivision := by
    rw [lump_cagr]
    norm_num
  exact ⟨h, by rw [h]; simp⟩

/-- Claim C4, amended: for `startValue ≤ 0` and distinct dates, `lump_cagr`
never returns the not-a-number sentinel: at `startValue = 0` it raises
`ZeroDivisionError`, and at `startValue < 0` it returns a real or complex
number (the guard `if years` tests only the elapsed time). -/
theorem lump_cagr_nonpos_start (v1 v2 : ℝ) (d1 d2 : ℤ) (_hv : v1 ≤ 0) (hd : d1 ≠ d2) :
    lump_cagr v1 v2 d1 d2 ≠ .ok .nan ∧
    (v1 = 0 → lump_cagr v1 v2 d1 d2 = .error .zeroDivision) := by
  have hy := years_ne_zero hd
  constructor
  · rw [lump_cagr]
    simp only [if_neg hy]
    by_cases h0 : v1 = 0
    · simp [h0]
    · simp only [if_neg h0]
      rcases hpp : pypow (v2 / v1) (1 / (((d2 - d1 : ℤ) : ℝ) / 365)) with er | v
      · simp
      · cases v with
        | real x => simp
        | complex => simp
        | nan => exact absurd hpp (pypow_ne_ok_nan _ _)
  · intro h0
    rw [lump_cagr]
    simp [if_neg hy, h0]
    exact sub_ne_zero.2 (by exact_mod_cast hd.symm)

/-- Witness for the amended claim C4 at `startValue = 0`, dates 0 and 730. -/
theorem lump_cagr_nonpos_start_witness :
    lump_cagr 0 1000 0 730 ≠ .ok .nan ∧
    lump_cagr 0 1000 0 730 = .error .zeroDivision := by
  have h := lump_cagr_nonpos_start 0 1000 0 730 (le_refl 0) (by decide)
  exact ⟨h.1, h.2 rfl⟩

/-
Claim C3 — behaviour of `xnpv` at rates at or below -1.
-/

lemma pypow_neg_int_exp {b e : ℝ} (h : b < 0) (hint : ∃ n : ℤ, (n : ℝ) = e) :
    pypow b e = .ok (.real (b ^ e)) := by
  simp [pypow, not_lt.2 h.le, h.ne, hint]

lemma rpow_ne_zero_of_neg_int {b e : ℝ} (h : b < 0) (hint : ∃ n : ℤ, (n : ℝ) = e) :
    b ^ e ≠ 0 := by
  rcases hint with ⟨n, rfl⟩
  rw [Real.rpow_intCast]
  exact zpow_ne_zero n h.ne

lemma pypow_neg_base_zero_exp {b : ℝ} (h : b < 0) : pypow b 0 = .ok (.real 1) := by
  rw [show (0 : ℝ) = ((0 : ℤ) : ℝ) by norm_num, pypow_neg_int h 0, Real.rpow_intCast]
  norm_num

lemma pypow_neg_base_one_exp {b : ℝ} (h : b < 0) : pypow b 1 = .ok (.real b) := by
  rw [show (1 : ℝ) = ((1 : ℤ) : ℝ) by norm_num, pypow_neg_int h 1, Real.rpow_intCast]
  norm_num

/-- At rate -1 the discount base is zero: the first entry dated differently
from the anchor raises `ZeroDivisionError` (`cf / 0.0`, or `0.0` to a
negative power). -/
lemma xnpvSum_rate_neg_one_err (t0 : ℤ) (l : List CashFlow)
    (hex : ∃ c ∈ l, c.date ≠ t0) :
    xnpvSum (-1) t0 l = .error .zeroDivision := by
  induction l with
  | nil => simp at hex
  | cons c rest ih =>
    rw [xnpvSum, show (1 : ℝ) + -1 = 0 by norm_num]
    rcases lt_trichotomy c.date t0 with hlt | heq | hgt
    · have he : ((c.date - t0 : ℤ) : ℝ) / 365 < 0 := by
        apply div_neg_of_neg_of_pos _ (by norm_num)
        exact_mod_cast sub_neg.2 hlt
      simp only [pypow_zero_of_neg he]
    · have he : ((c.date - t0 : ℤ) : ℝ) / 365 = 0 := by
        rw [heq]; simp
      have hrest : ∃ c ∈ rest, c.date ≠ t0 := by
        rcases hex with ⟨c', hmem, hne⟩
        rcases List.mem_cons.1 hmem with h1 | h2
        · exact absurd heq (h1 ▸ hne)
        · exact ⟨c', h2, hne⟩
      simp only [he, pypow_zero_zero, pydiv_of_ne one_ne_zero, ih hrest]
    · have he : 0 < ((c.date - t0 : ℤ) : ℝ) / 365 := by
        apply div_pos _ (by norm_num)
        exact_mod_cast sub_pos.2 hgt
      simp only [pypow_zero_of_pos he, pydiv_of_zero]

/-- Below rate -1 the discount base is negative, so every term evaluates
without an exception (real for integral exponents, complex otherwise). -/
lemma xnpvSum_neg_base_ok {r : ℝ} (hb : 1 + r < 0) (t0 : ℤ) (l : List CashFlow) :
    xnpvSum r t0 l = .ok .complex ∨ ∃ x, xnpvSum r t0 l = .ok (.real x) := by
  induction l with
  | nil => exact Or.inr ⟨0, rfl⟩
  | cons c rest ih =>
    rw [xnpvSum]
    by_cases hint : ∃ n : ℤ, (n : ℝ) = ((c.date - t0 : ℤ) : ℝ) / 365
    · rcases ih with hco | ⟨x, hx⟩
      · exact Or.inl (by
          simp only [pypow_neg_int_exp hb hint,
            pydiv_of_ne (rpow_ne_zero_of_neg_int hb hint), hco, pyAdd])
      · refine Or.inr ⟨c.amount / (1 + r) ^ (((c.date - t0 : ℤ) : ℝ) / 365) + x, ?_⟩
        simp only [pypow_neg_int_exp hb hint,
          pydiv_of_ne (rpow_ne_zero_of_neg_int hb hint), hx, pyAdd]
    · rcases ih with hco | ⟨x, hx⟩
      · exact Or.inl (by
          simp only [pypow_neg_nonint hb hint, pydiv, hco, pyAdd])
      · exact Or.inl (by
          simp only [pypow_neg_nonint hb hint, pydiv, hx, pyAdd])

/-- Below rate -1, one non-integral exponent makes the whole sum complex. -/
lemma xnpvSum_neg_base_complex {r : ℝ} (hb : 1 + r < 0) (t0 : ℤ) (l : List CashFlow)
    (hbad : ∃ c ∈ l, ¬∃ n : ℤ, (n : ℝ) = ((c.date - t0 : ℤ) : ℝ) / 365) :
    xnpvSum r t0 l = .ok .complex := by
  induction l with
  | nil => simp at hbad
  | cons c rest ih =>
    rw [xnpvSum]
    by_cases hint : ∃ n : ℤ, (n : ℝ) = ((c.date - t0 : ℤ) : ℝ) / 365
    · have hrest : ∃ c ∈ rest, ¬∃ n : ℤ, (n : ℝ) = ((c.date - t0 : ℤ) : ℝ) / 365 := by
        rcases hbad with ⟨c', hmem, hne⟩
        rcases List.mem_cons.1 hmem with h1 | h2
        · exact absurd hint (h1 ▸ hne)
        · exact ⟨c', h2, hne⟩
      simp only [pypow_neg_int_exp hb hint,
        pydiv_of_ne (rpow_ne_zero_of_neg_int hb hint), ih hrest, pyAdd]
    · rcases xnpvSum_neg_base_ok hb t0 rest with hco | ⟨x, hx⟩
      · simp only [pypow_neg_nonint hb hint, pydiv, hco, pyAdd]
      · simp only [pypow_neg_nonint hb hint, pydiv, hx, pyAdd]

/-- Counterexample to claim C3 as stated: at rate -2 (≤ -1) on a series whose
only later entry sits exactly one 365-day year after the anchor, every
exponent is integral, so `xnpv` returns a real value (-2100) and fails with
nothing at all — in particular with no `InvalidRate` condition. -/
theorem xnpv_low_rate_counterexample :
    xnpv (-2) [⟨0, -1000⟩, ⟨365, 1100⟩] = .ok (-2100) ∧
    ∀ er, xnpv (-2) [⟨0, -1000⟩, ⟨365, 1100⟩] ≠ .error er := by
  have hb : (-1 : ℝ) < 0 := by norm_num
  have hsum : xnpvSum (-2) 0 [⟨0, -1000⟩, ⟨365, 1100⟩] = .ok (.real (-2100)) := by
    rw [xnpvSum, xnpvSum, xnpvSum]
    norm_num
    simp only [pypow_neg_base_zero_exp hb, pypow_neg_base_one_exp hb,
      pydiv_of_ne one_ne_zero, pydiv_of_ne (show (-1 : ℝ) ≠ 0 by norm_num), pyAdd]
    norm_num
  have h : xnpv (-2) [⟨0, -1000⟩, ⟨365, 1100⟩] = .ok (-2100) := by
    rw [xnpv]
    simp only [hsum]
  exact ⟨h, fun er => by rw [h]; simp⟩

/-- Claim C3, amended: there is no `InvalidRate` condition in the evaluator.
At rate -1 a series with an entry dated differently from its first entry
raises an uncaught `ZeroDivisionError`; below -1 a series with a
non-integral year-fraction exponent produces a complex sum whose final
`float(...)` conversion raises `TypeError`; below -1 with all-integral
exponents the evaluator returns a real value without failing. -/
theorem xnpv_low_rate_raises (c0 : CashFlow) (cs : List CashFlow) :
    ((∃ c ∈ cs, c.date ≠ c0.date) → xnpv (-1) (c0 :: cs) = .error .zeroDivision) ∧
    (∀ r : ℝ, r < -1 →
      (∃ c ∈ cs, ¬∃ n : ℤ, (n : ℝ) = ((c.date - c0.date : ℤ) : ℝ) / 365) →
      xnpv r (c0 :: cs) = .error .typeError) := by
  constructor
  · intro hex
    have h : ∃ c ∈ c0 :: cs, c.date ≠ c0.date := by
      rcases hex with ⟨c, hmem, hne⟩
      exact ⟨c, List.mem_cons_of_mem _ hmem, hne⟩
    rw [xnpv, xnpvSum_rate_neg_one_err c0.date (c0 :: cs) h]
  · intro r hr hex
    have hb : 1 + r < 0 := by linarith
    have h : ∃ c ∈ c0 :: cs, ¬∃ n : ℤ, (n : ℝ) = ((c.date - c0.date : ℤ) : ℝ) / 365 := by
      rcases hex with ⟨c, hmem, hne⟩
      exact ⟨c, List.mem_cons_of_mem _ hmem, hne⟩
    rw [xnpv, xnpvSum_neg_base_complex hb c0.date (c0 :: cs) h]

lemma not_int_200_365 : ¬∃ n : ℤ, (n : ℝ) = ((200 - 0 : ℤ) : ℝ) / 365 := by
  rintro ⟨n, hn⟩
  norm_num at hn
  have h2 : (n : ℝ) * 365 = 200 := by rw [hn]; norm_num
  have h3 : (n * 365 : ℤ) = 200 := by exact_mod_cast h2
  omega

/-- Witness for the amended claim C3: the series `[(0, -1000), (200, 500)]`
raises `ZeroDivisionError` at rate -1 and `TypeError` at rate -3/2. -/
theorem xnpv_low_rate_raises_witness :
    xnpv (-1) [⟨0, -1000⟩, ⟨200, 500⟩] = .error .zeroDivision ∧
    xnpv (-3 / 2) [⟨0, -1000⟩, ⟨200, 500⟩] = .error .typeError := by
  have h := xnpv_low_rate_raises ⟨0, -1000⟩ [⟨200, 500⟩]
  constructor
  · exact h.1 ⟨⟨200, 500⟩, by simp, by decide⟩
  · exact h.2 (-3 / 2) (by norm_num) ⟨⟨200, 500⟩, by simp, not_int_200_365⟩

/-
Claims C1, C7, C10 — the synthetic benchmark series.
-/

lemma mem_of_getLast?_eq {α : Type _} {l : List α} {a : α} (h : l.getLast? = some a) :
    a ∈ l := by
  have hsplit := List.dropLast_append_getLast? a (Option.mem_def.2 h)
  rw [← hsplit]
  exact List.mem_append.2 (Or.inr (by simp))

/-- Anatomy of a successful synthetic build: the last entry, the accumulated
shares and the final price exist, and the output is all non-final entries
followed by the new final entry. -/
lemma spSynthetic_ok_elim {prices : List PricePoint} {cashflows out : List CashFlow}
    (h : spSynthetic prices cashflows = .ok out) :
    ∃ clast shares px, cashflows.getLast? = some clast ∧
      spSharesLoop prices cashflows.dropLast 0 = .ok shares ∧
      lastPrice prices = .ok px ∧
      out = cashflows.dropLast ++ [⟨clast.date, shares * px⟩] := by
  rw [spSynthetic] at h
  rcases hl : cashflows.getLast? with _ | clast
  · simp [hl] at h
  · simp only [hl] at h
    rcases hs : spSharesLoop prices cashflows.dropLast 0 with er | shares
    · simp [hs] at h
    · simp only [hs] at h
      rcases hp : lastPrice prices with er | px
      · simp [hp] at h
      · simp only [hp, Except.ok.injEq] at h
        exact ⟨clast, shares, px, rfl, rfl, rfl, h.symm⟩

/-- The share accumulation only looks at the negative-amount entries:
filtering the others out first does not change the result. -/
lemma spSharesLoop_filter (prices : List PricePoint) (l : List CashFlow) (s : ℝ) :
    spSharesLoop prices l s =
      spSharesLoop prices (l.filter (fun c => decide (c.amount < 0))) s := by
  induction l generalizing s with
  | nil => rfl
  | cons c rest ih =>
    by_cases hc : c.amount < 0
    · rcases hp : priceAtOrBefore prices c.date with er | px
      · simp [spSharesLoop, List.filter_cons, hc, hp]
      · by_cases hz : px = 0
        · simp [spSharesLoop, List.filter_cons, hc, hp, hz]
        · simp [spSharesLoop, List.filter_cons, hc, hp, hz, ih]
    · simp [spSharesLoop, List.filter_cons, hc, ih]

lemma priceAtOrBefore_pos {prices : List PricePoint} (hpos : ∀ p ∈ prices, 0 < p.price)
    {d : ℤ} {px : ℝ} (h : priceAtOrBefore prices d = .ok px) : 0 < px := by
  rw [priceAtOrBefore] at h
  rcases hf : (prices.filter (fun p => decide (p.date ≤ d))).getLast? with _ | p
  · simp [hf] at h
  · simp only [hf, Except.ok.injEq] at h
    have hmem : p ∈ prices :=
      (List.mem_filter.1 (mem_of_getLast?_eq hf)).1
    rw [← h]
    exact hpos p hmem

lemma lastPrice_pos {prices : List PricePoint} (hpos : ∀ p ∈ prices, 0 < p.price)
    {px : ℝ} (h : lastPrice prices = .ok px) : 0 < px := by
  rw [lastPrice] at h
  rcases hf : prices.getLast? with _ | p
  · simp [hf] at h
  · simp only [hf, Except.ok.injEq] at h
    rw [← h]
    exact hpos p (mem_of_getLast?_eq hf)

/-- With positive prices, the accumulated share count never decreases below
its starting point. -/
lemma spSharesLoop_nonneg {prices : List PricePoint} (hpos : ∀ p ∈ prices, 0 < p.price) :
    ∀ (l : List CashFlow) (s sout : ℝ),
      spSharesLoop prices l s = .ok sout → 0 ≤ s → 0 ≤ sout := by
  intro l
  induction l with
  | nil =>
    intro s sout h hs
    rw [spSharesLoop] at h
    injection h with h
    rw [← h]
    exact hs
  | cons c rest ih =>
    intro s sout h hs
    rw [spSharesLoop] at h
    by_cases hc : c.amount < 0
    · rw [if_pos hc] at h
      rcases hp : priceAtOrBefore prices c.date with er | px
      · simp [hp] at h
      · simp only [hp] at h
        have hpx := priceAtOrBefore_pos hpos hp
        rw [if_neg hpx.ne'] at h
        refine ih _ _ h ?_
        have hterm : 0 ≤ (-c.amount) / px := div_nonneg (by linarith) hpx.le
        linarith
    · rw [if_neg hc] at h
      exact ih _ _ h hs

/-- Appending a non-negative final entry leaves `total_invested` unchanged. -/
lemma total_invested_append_nonneg (l : List CashFlow) (c : CashFlow)
    (hc : 0 ≤ c.amount) :
    total_invested (l ++ [c]) = total_invested l := by
  rw [total_invested, total_invested, List.filter_append]
  simp [List.filter_cons, not_lt.2 hc]

/-- Claim C10: for every successful synthetic build, the output keeps every
non-final input entry verbatim and in order (non-negative amounts included),
adds exactly one final entry so the lengths agree, the final entry's date is
the input's last date, and only negative-amount entries contribute to the
accumulated share count. -/
theorem spSynthetic_keeps_all_entries (prices : List PricePoint)
    (cashflows out : List CashFlow) (h : spSynthetic prices cashflows = .ok out) :
    out.dropLast = cashflows.dropLast ∧
    out.length = cashflows.length ∧
    (∀ clast cN, cashflows.getLast? = some clast → out.getLast? = some cN →
      cN.date = clast.date) ∧
    (∀ s : ℝ, spSharesLoop prices cashflows.dropLast s =
      spSharesLoop prices (cashflows.dropLast.filter (fun c => decide (c.amount < 0))) s) := by
  obtain ⟨clast, shares, px, hl, _hs, _hp, hout⟩ := spSynthetic_ok_elim h
  have hsplit : cashflows.dropLast ++ [clast] = cashflows :=
    List.dropLast_append_getLast? clast (Option.mem_def.2 hl)
  refine ⟨?_, ?_, ?_, fun s => spSharesLoop_filter prices _ s⟩
  · rw [hout, List.dropLast_concat]
  · rw [hout, List.length_append]
    conv_rhs => rw [← hsplit]
    rw [List.length_append]
    simp
  · intro clast' cN hl' hN
    rw [hl] at hl'
    injection hl' with hcl
    rw [hout, List.getLast?_concat] at hN
    injection hN with hN
    rw [← hN, hcl]

/-- Claim C1, amended: the output series is every original non-final entry
unchanged and in original order — non-outflow entries included — followed by
one new final entry at the original last date whose amount is the accumulated
shares (accumulated over the outflow entries only) times the last price. -/
theorem spSynthetic_series_shape (prices : List PricePoint)
    (cashflows out : List CashFlow) (h : spSynthetic prices cashflows = .ok out) :
    ∃ clast shares px,
      cashflows.getLast? = some clast ∧
      spSharesLoop prices
        (cashflows.dropLast.filter (fun c => decide (c.amount < 0))) 0 = .ok shares ∧
      lastPrice prices = .ok px ∧
      out = cashflows.dropLast ++ [⟨clast.date, shares * px⟩] := by
  obtain ⟨clast, shares, px, hl, hs, hp, hout⟩ := spSynthetic_ok_elim h
  refine ⟨clast, shares, px, hl, ?_, hp, hout⟩
  rw [← spSharesLoop_filter]
  exact hs

/-- Claim C7: when every non-final entry is an outflow, prices are positive
and the final valuation is non-negative, the synthetic series has exactly the
original total invested (outflow amounts are copied verbatim and the appended
final entry is non-negative). -/
theorem spSynthetic_preserves_invested (prices : List PricePoint)
    (cashflows out : List CashFlow)
    (h : spSynthetic prices cashflows = .ok out)
    (_hneg : ∀ c ∈ cashflows.dropLast, c.amount < 0)
    (hpos : ∀ p ∈ prices, 0 < p.price)
    (hval : ∀ clast, cashflows.getLast? = some clast → 0 ≤ clast.amount) :
    total_invested out = total_invested cashflows := by
  obtain ⟨clast, shares, px, hl, hs, hp, hout⟩ := spSynthetic_ok_elim h
  have hsh : 0 ≤ shares := spSharesLoop_nonneg hpos _ 0 shares hs le_rfl
  have hpx : 0 < px := lastPrice_pos hpos hp
  have hfin : 0 ≤ shares * px := mul_nonneg hsh hpx.le
  rw [hout, total_invested_append_nonneg _ _ hfin]
  conv_rhs => rw [← List.dropLast_append_getLast? clast (Option.mem_def.2 hl)]
  rw [total_invested_append_nonneg _ _ (hval clast hl)]

/-- Counterexample to claim C1 as stated: the entry `(10, 50)` has positive
amount and is not final, yet it appears verbatim in the synthetic series
(`cashflows[:-1]` keeps every non-final entry, outflow or not). -/
theorem spSynthetic_keeps_inflow_entry :
    spSynthetic [⟨0, 100⟩, ⟨20, 200⟩] [⟨0, -100⟩, ⟨10, 50⟩, ⟨20, 1000⟩] =
      .ok [⟨0, -100⟩, ⟨10, 50⟩, ⟨20, 200⟩] ∧
    (⟨10, 50⟩ : CashFlow) ∈ [(⟨0, -100⟩ : CashFlow), ⟨10, 50⟩, ⟨20, 200⟩] ∧
    ¬((⟨10, 50⟩ : CashFlow).amount < 0) := by
  refine ⟨?_, by simp, by norm_num⟩
  rw [spSynthetic]
  have hl : ([⟨0, -100⟩, ⟨10, 50⟩, ⟨20, 1000⟩] : List CashFlow).getLast? =
      some ⟨20, 1000⟩ := rfl
  have hdl : ([⟨0, -100⟩, ⟨10, 50⟩, ⟨20, 1000⟩] : List CashFlow).dropLast =
      [⟨0, -100⟩, ⟨10, 50⟩] := rfl
  have hpab : priceAtOrBefore [⟨0, 100⟩, ⟨20, 200⟩] 0 = .ok 100 := rfl
  have hloop : spSharesLoop [⟨0, 100⟩, ⟨20, 200⟩] [⟨0, -100⟩, ⟨10, 50⟩] 0 =
      .ok (0 + 100 / 100) := by
    simp only [spSharesLoop, hpab]
    norm_num
  have hlp : lastPrice [⟨0, 100⟩, ⟨20, 200⟩] = .ok 200 := rfl
  simp only [hl, hdl, hloop, hlp]
  norm_num

/-- Witness for the amended claim C1 on `prices = [(0, 25)]` and
`cashflows = [(0, -50), (1, 5), (2, 60)]`: the synthetic series is
`[(0, -50), (1, 5), (2, 50)]`. -/
theorem spSynthetic_series_shape_witness :
    ∃ clast shares px,
      ([⟨0, -50⟩, ⟨1, 5⟩, ⟨2, 60⟩] : List CashFlow).getLast? = some clast ∧
      spSharesLoop [⟨0, 25⟩]
        (([⟨0, -50⟩, ⟨1, 5⟩, ⟨2, 60⟩] : List CashFlow).dropLast.filter
          (fun c => decide (c.amount < 0))) 0 = .ok shares ∧
      lastPrice [⟨0, 25⟩] = .ok px ∧
      ([⟨0, -50⟩, ⟨1, 5⟩, ⟨2, 50⟩] : List CashFlow) =
        ([⟨0, -50⟩, ⟨1, 5⟩, ⟨2, 60⟩] : List CashFlow).dropLast ++
          [⟨clast.date, shares * px⟩] := by
  refine spSynthetic_series_shape [⟨0, 25⟩] _ _ ?_
  rw [spSynthetic]
  have hl : ([⟨0, -50⟩, ⟨1, 5⟩, ⟨2, 60⟩] : List CashFlow).getLast? = some ⟨2, 60⟩ := rfl
  have hdl : ([⟨0, -50⟩, ⟨1, 5⟩, ⟨2, 60⟩] : List CashFlow).dropLast =
      [⟨0, -50⟩, ⟨1, 5⟩] := rfl
  have hpab : priceAtOrBefore [⟨0, 25⟩] 0 = .ok 25 := rfl
  have hloop : spSharesLoop [⟨0, 25⟩] [⟨0, -50⟩, ⟨1, 5⟩] 0 = .ok (0 + 50 / 25) := by
    simp only [spSharesLoop, hpab]
    norm_num
  have hlp : lastPrice [⟨0, 25⟩] = .ok 25 := rfl
  simp only [hl, hdl, hloop, hlp]
  norm_num

/-- Witness for claim C7 on `prices = [(0, 50), (30, 80)]` and
`cashflows = [(0, -200), (30, 999)]`: the synthetic series
`[(0, -200), (30, 320)]` has the same total invested, 200. -/
theorem spSynthetic_preserves_invested_witness :
    total_invested [⟨0, -200⟩, ⟨30, 320⟩] =
      total_invested [⟨0, -200⟩, ⟨30, 999⟩] := by
  refine spSynthetic_preserves_invested [⟨0, 50⟩, ⟨30, 80⟩] _ _ ?_ ?_ ?_ ?_
  · rw [spSynthetic]
    have hl : ([⟨0, -200⟩, ⟨30, 999⟩] : List CashFlow).getLast? = some ⟨30, 999⟩ := rfl
    have hdl : ([⟨0, -200⟩, ⟨30, 999⟩] : List CashFlow).dropLast = [⟨0, -200⟩] := rfl
    have hpab : priceAtOrBefore [⟨0, 50⟩, ⟨30, 80⟩] 0 = .ok 50 := rfl
    have hloop : spSharesLoop [⟨0, 50⟩, ⟨30, 80⟩] [⟨0, -200⟩] 0 =
        .ok (0 + 200 / 50) := by
      simp only [spSharesLoop, hpab]
      norm_num
    have hlp : lastPrice [⟨0, 50⟩, ⟨30, 80⟩] = .ok 80 := rfl
    simp only [hl, hdl, hloop, hlp]
    norm_num
  · intro c hc
    simp at hc
    rw [hc]
    norm_num
  · intro p hp
    simp at hp
    rcases hp with rfl | rfl <;> norm_num
  · intro clast hc
    simp at hc
    rw [← hc]
    norm_num

/-- Witness for claim C10 on `prices = [(5, 10)]` and
`cashflows = [(5, -30), (6, 40), (7, 70)]`: the synthetic series is
`[(5, -30), (6, 40), (7, 30)]`. -/
theorem spSynthetic_keeps_all_entries_witness :
    ([⟨5, -30⟩, ⟨6, 40⟩, ⟨7, 30⟩] : List CashFlow).dropLast =
      ([⟨5, -30⟩, ⟨6, 40⟩, ⟨7, 70⟩] : List CashFlow).dropLast ∧
    ([⟨5, -30⟩, ⟨6, 40⟩, ⟨7, 30⟩] : List CashFlow).length =
      ([⟨5, -30⟩, ⟨6, 40⟩, ⟨7, 70⟩] : List CashFlow).length ∧
    (∀ clast cN, ([⟨5, -30⟩, ⟨6, 40⟩, ⟨7, 70⟩] : List CashFlow).getLast? = some clast →
      ([⟨5, -30⟩, ⟨6, 40⟩, ⟨7, 30⟩] : List CashFlow).getLast? = some cN →
      cN.date = clast.date) ∧
    (∀ s : ℝ, spSharesLoop [⟨5, 10⟩]
        (([⟨5, -30⟩, ⟨6, 40⟩, ⟨7, 70⟩] : List CashFlow).dropLast) s =
      spSharesLoop [⟨5, 10⟩]
        ((([⟨5, -30⟩, ⟨6, 40⟩, ⟨7, 70⟩] : List CashFlow).dropLast).filter
          (fun c => decide (c.amount < 0))) s) := by
  refine spSynthetic_keeps_all_entries [⟨5, 10⟩] _ _ ?_
  rw [spSynthetic]
  have hl : ([⟨5, -30⟩, ⟨6, 40⟩, ⟨7, 70⟩] : List CashFlow).getLast? = some ⟨7, 70⟩ := rfl
  have hdl : ([⟨5, -30⟩, ⟨6, 40⟩, ⟨7, 70⟩] : List CashFlow).dropLast =
      [⟨5, -30⟩, ⟨6, 40⟩] := rfl
  have hpab : priceAtOrBefore [⟨5, 10⟩] 5 = .ok 10 := rfl
  have hloop : spSharesLoop [⟨5, 10⟩] [⟨5, -30⟩, ⟨6, 40⟩] 0 = .ok (0 + 30 / 10) := by
    simp only [spSharesLoop, hpab]
    norm_num
  have hlp : lastPrice [⟨5, 10⟩] = .ok 10 := rfl
  simp only [hl, hdl, hloop, hlp]
  norm_num

/-
Claim C2 — outcomes of the `xirr` solver call.
-/

lemma pypow_pos_zero {b : ℝ} (h : 0 < b) : pypow b 0 = .ok (.real 1) := by
  rw [pypow_of_pos 0 h, Real.rpow_zero]

lemma pypow_pos_one {b : ℝ} (h : 0 < b) : pypow b 1 = .ok (.real b) := by
  rw [pypow_of_pos 1 h, Real.rpow_one]

lemma pypow_pos_two {b : ℝ} (h : 0 < b) : pypow b 2 = .ok (.real (b * b)) := by
  rw [pypow_of_pos 2 h, show (2 : ℝ) = ((2 : ℕ) : ℝ) by norm_num, Real.rpow_natCast]
  rw [pow_two]

lemma newtonLoop_succ (cashflows : List CashFlow) (fuel : ℕ) (r : ℝ) :
    newtonLoop cashflows (fuel + 1) r =
      match xnpv r cashflows with
      | .error er => .error er
      | .ok fv =>
        if |fv| < 1 / 1000000 then .ok r
        else
          match xnpvDeriv r cashflows with
          | .error er => .error er
          | .ok dv =>
            if dv = 0 then .error .runtimeError
            else newtonLoop cashflows fuel (r - fv / dv) := by
  rw [newtonLoop]

/-- First Newton evaluation for the series `[(0, -20), (365, 11)]`:
`f(0.1) = -20 + 11/1.1 = -10`. -/
lemma c2_xnpvSum_seed : xnpvSum (1 / 10) 0 [⟨0, -20⟩, ⟨365, 11⟩] = .ok (.real (-10)) := by
  rw [xnpvSum, xnpvSum, xnpvSum]
  norm_num
  simp only [pypow_pos_zero (show (0 : ℝ) < 11 / 10 by norm_num),
    pypow_pos_one (show (0 : ℝ) < 11 / 10 by norm_num),
    pydiv_of_ne one_ne_zero,
    pydiv_of_ne (show (11 / 10 : ℝ) ≠ 0 by norm_num), pyAdd]
  norm_num

lemma c2_xnpv_seed : xnpv (1 / 10) [⟨0, -20⟩, ⟨365, 11⟩] = .ok (-10) := by
  rw [xnpv]
  simp only [c2_xnpvSum_seed]

/-- First derivative evaluation for the same series:
`f'(0.1) = -11/1.21 = -100/11`. -/
lemma c2_derivSum_seed :
    xnpvDerivSum (1 / 10) 0 [⟨0, -20⟩, ⟨365, 11⟩] = .ok (.real (-100 / 11)) := by
  rw [xnpvDerivSum, xnpvDerivSum, xnpvDerivSum]
  norm_num
  simp only [pypow_pos_one (show (0 : ℝ) < 11 / 10 by norm_num),
    pypow_pos_two (show (0 : ℝ) < 11 / 10 by norm_num),
    pydiv_of_ne (show (11 / 10 : ℝ) ≠ 0 by norm_num),
    pydiv_of_ne (show (11 / 10 * (11 / 10) : ℝ) ≠ 0 by norm_num), pyAdd]
  norm_num

lemma c2_deriv_seed : xnpvDeriv (1 / 10) [⟨0, -20⟩, ⟨365, 11⟩] = .ok (-100 / 11) := by
  rw [xnpvDeriv]
  simp only [c2_derivSum_seed]

/-- The Newton step from the seed lands exactly on rate -1, where the
evaluation raises `ZeroDivisionError`. -/
lemma c2_xnpv_crash : xnpv (-1) [⟨0, -20⟩, ⟨365, 11⟩] = .error .zeroDivision := by
  rw [xnpv, xnpvSum_rate_neg_one_err]
  exact ⟨⟨365, 11⟩, by simp, by decide⟩

/-- Counterexample to claim C2 as stated: on `[(0, -20), (365, 11)]` the
Newton iteration steps from 0.1 exactly to -1, `xnpv` raises
`ZeroDivisionError` there, and `xirr` — whose `except` clause catches only
`RuntimeError` — neither returns a rate nor the nan sentinel but propagates
the exception (an unrecovered crash). -/
theorem xirr_crash_counterexample :
    xirr [⟨0, -20⟩, ⟨365, 11⟩] = .error .zeroDivision ∧
    xirr [⟨0, -20⟩, ⟨365, 11⟩] ≠ .ok .nan ∧
    ∀ r, xirr [⟨0, -20⟩, ⟨365, 11⟩] ≠ .ok (.real r) := by
  have habs : |(-10 : ℝ)| = 10 := by
    rw [abs_of_nonpos (by norm_num : (-10 : ℝ) ≤ 0)]
    norm_num
  have h1 : newtonLoop [⟨0, -20⟩, ⟨365, 11⟩] 50 (1 / 10) = .error .zeroDivision := by
    rw [show (50 : ℕ) = 49 + 1 from rfl, newtonLoop_succ]
    simp only [c2_xnpv_seed, c2_deriv_seed]
    rw [habs, if_neg (by norm_num : ¬(10 : ℝ) < 1 / 1000000),
      if_neg (by norm_num : ¬(-100 / 11 : ℝ) = 0),
      show (1 / 10 : ℝ) - (-10) / (-100 / 11) = -1 by norm_num,
      show (49 : ℕ) = 48 + 1 from rfl, newtonLoop_succ]
    simp only [c2_xnpv_crash]
  have hx : xirr [⟨0, -20⟩, ⟨365, 11⟩] = .error .zeroDivision := by
    rw [xirr]
    simp only [h1]
  exact ⟨hx, by rw [hx]; simp, fun r => by rw [hx]; simp⟩

/-- Claim C2, amended: an `xirr` call either returns a rate, returns the nan
sentinel — exactly when the iteration signals `RuntimeError` (cap exhausted or
zero derivative) — or propagates an unrecovered exception of another class
(such as the `ZeroDivisionError`/`TypeError` domain violations raised by the
evaluator at rates at or below -1), which the `except RuntimeError` clause
does not catch. -/
theorem xirr_outcomes (cashflows : List CashFlow) :
    ((∃ r, xirr cashflows = .ok (.real r)) ∨ xirr cashflows = .ok .nan ∨
      (∃ er, er ≠ PyErr.runtimeError ∧ xirr cashflows = .error er)) ∧
    (xirr cashflows = .ok .nan ↔
      newtonLoop cashflows 50 (1 / 10) = .error .runtimeError) := by
  rcases hn : newtonLoop cashflows 50 (1 / 10) with er | r
  · cases er with
    | zeroDivision =>
      exact ⟨Or.inr (Or.inr ⟨.zeroDivision, by simp, by rw [xirr, hn]⟩),
        by rw [xirr, hn]; simp⟩
    | typeError =>
      exact ⟨Or.inr (Or.inr ⟨.typeError, by simp, by rw [xirr, hn]⟩),
        by rw [xirr, hn]; simp⟩
    | indexError =>
      exact ⟨Or.inr (Or.inr ⟨.indexError, by simp, by rw [xirr, hn]⟩),
        by rw [xirr, hn]; simp⟩
    | runtimeError =>
      exact ⟨Or.inr (Or.inl (by rw [xirr, hn])), by rw [xirr, hn]; simp⟩
  · exact ⟨Or.inl ⟨r, by rw [xirr, hn]⟩, by rw [xirr, hn]; simp⟩
